import Mathlib

/-!
Verification of the `splay` load-generator's statistics engine
(`pkg/stats/stats.go`), its operation-type selection
(`pkg/config/config.go`, `GetOperationType`) and the event protocol of
`pkg/worker/worker.go`, as a shallow embedding in Lean 4.

Modelling conventions, fixed once for the whole file:

* Go `int64` counters and nanosecond durations are modelled as `Int`.
  No claim in scope depends on 64-bit wrap-around (all invariants are
  reachability statements far below `2^63` events), so the unbounded
  integers are faithful on every reachable state.
* Go `float64` quantities (millisecond values, ratios, rates, seconds)
  are modelled as `ℚ`.  Where the Go code divides two floats whose
  divisor can be zero, the division is modelled by `fdiv`, which returns
  `none` exactly when the divisor is zero (the IEEE result would be a
  non-finite Inf/NaN, i.e. not a real number); a division whose divisor
  is guarded to be nonzero by the surrounding code is modelled by plain
  `ℚ` division.
* The bucket test `float64(latency.Nanoseconds())/1e6 <= bucket` is
  modelled as the exact rational comparison `latencyNs / 1000000 ≤ b`.
  This is faithful: the boundaries `b ∈ {1,…,5000}` are exactly
  representable, `float64(n)` is exact for `|n| ≤ 2^53` and the rounding
  error of the division (about `5·10^-13` near `5000`) is far smaller
  than the minimal nonzero distance `10^-6` between `n/10^6` and an
  integer boundary, while for `|n| > 2^53` the quotient exceeds every
  boundary by orders of magnitude, so no comparison can be flipped by
  rounding.
* The lock-free compare-and-swap max/min loops of `Record` terminate,
  for each single call, with exactly the max/min of the old field and
  the new sample; sequentially they are embedded as max/min updates.
* The buffered channel `resultChan` (capacity 1000000) with the
  `select`/`default` push idiom is modelled as a FIFO list bounded by
  `chanCap`: a push onto a full queue is dropped, otherwise it appends;
  the single consumer goroutine pops from the front.
-/

namespace Splay

/-- Bucket upper boundaries in milliseconds, `latencyBuckets` of stats.go. -/
def latencyBuckets : List ℚ := [1, 2, 5, 10, 20, 50, 100, 200, 500, 1000, 2000, 5000]

/-- The `LatencyStats` struct of stats.go.  All counters are `int64`. -/
structure LatencyStats where
  buckets : List Int
  totalCount : Int
  totalTime : Int
  maxLatency : Int
  minLatency : Int
  highPriorityBuckets : List Int
  highPriorityTotalCount : Int
  highPriorityTotalTime : Int
  highPriorityMaxLatency : Int
  highPriorityMinLatency : Int
  deriving DecidableEq

/-- `int64(^uint64(0) >> 1)`, the largest `int64`, used to initialise the
minimum-latency fields so that the first sample always wins. -/
def int64Max : Int := 2 ^ 63 - 1

/-- `NewLatencyStats` of stats.go: 13 zeroed buckets (12 boundaries plus
one overflow bucket), zero counters, min fields at `int64Max`. -/
def NewLatencyStats : LatencyStats where
  buckets := List.replicate 13 0
  totalCount := 0
  totalTime := 0
  maxLatency := 0
  minLatency := int64Max
  highPriorityBuckets := List.replicate 13 0
  highPriorityTotalCount := 0
  highPriorityTotalTime := 0
  highPriorityMaxLatency := 0
  highPriorityMinLatency := int64Max

/-- Index of the first entry of `l` that is `≥ ms`, or `l.length` when no
entry qualifies.  This is the loop of `Record` that computes
`bucketIndex` (with default `len(latencyBuckets)`). -/
def findBucket (ms : ℚ) : List ℚ → Nat
  | [] => 0
  | b :: bs => if ms ≤ b then 0 else findBucket ms bs + 1

/-- The bucket index chosen by `Record` for a latency of `ns` nanoseconds:
the Go code compares `latencyMs := float64(ns)/1e6` against each boundary. -/
def bucketIndex (latencyNs : Int) : Nat :=
  findBucket ((latencyNs : ℚ) / 1000000) latencyBuckets

/-- Increment the entry at position `n` of a list of counters
(`atomic.AddInt64(&ls.buckets[bucketIndex], 1)`). -/
def incAt : List Int → Nat → List Int
  | [], _ => []
  | x :: xs, 0 => (x + 1) :: xs
  | x :: xs, n + 1 => x :: incAt xs n

/-- `Record` of stats.go.  `latencyNs` is `latency.Nanoseconds()`.  The
CAS retry loops for max/min are embedded as max/min updates (see header).
The high-priority shadow structure is updated only when `priority ≥ 3`,
reusing the same bucket index. -/
def Record (ls : LatencyStats) (latencyNs : Int) (priority : Int) : LatencyStats :=
  let idx := bucketIndex latencyNs
  let ls' : LatencyStats :=
    { ls with
      totalCount := ls.totalCount + 1
      totalTime := ls.totalTime + latencyNs
      maxLatency := if latencyNs ≤ ls.maxLatency then ls.maxLatency else latencyNs
      minLatency := if latencyNs ≥ ls.minLatency then ls.minLatency else latencyNs
      buckets := incAt ls.buckets idx }
  if priority ≥ 3 then
    { ls' with
      highPriorityTotalCount := ls'.highPriorityTotalCount + 1
      highPriorityTotalTime := ls'.highPriorityTotalTime + latencyNs
      highPriorityMaxLatency :=
        if latencyNs ≤ ls'.highPriorityMaxLatency then ls'.highPriorityMaxLatency else latencyNs
      highPriorityMinLatency :=
        if latencyNs ≥ ls'.highPriorityMinLatency then ls'.highPriorityMinLatency else latencyNs
      highPriorityBuckets := incAt ls'.highPriorityBuckets idx }
  else ls'

/-- `GetStats` of stats.go: `(avgLatency, maxLatencyMs, minLatencyMs, buckets)`.
When `totalCount == 0` it returns zeros and a fresh all-zero bucket slice
(`make([]int64, len(ls.buckets))`) without dividing; otherwise the average
is `totalTime / totalCount / 1e6` (the divisor is nonzero in this branch). -/
def GetStats (ls : LatencyStats) : ℚ × ℚ × ℚ × List Int :=
  if ls.totalCount = 0 then
    (0, 0, 0, List.replicate ls.buckets.length 0)
  else
    ((ls.totalTime : ℚ) / (ls.totalCount : ℚ) / 1000000,
     (ls.maxLatency : ℚ) / 1000000,
     (ls.minLatency : ℚ) / 1000000,
     ls.buckets)

/-- `GetHighPriorityStats` of stats.go: same shape as `GetStats` over the
high-priority shadow fields, additionally returning the high-priority count. -/
def GetHighPriorityStats (ls : LatencyStats) : ℚ × ℚ × ℚ × List Int × Int :=
  if ls.highPriorityTotalCount = 0 then
    (0, 0, 0, List.replicate ls.highPriorityBuckets.length 0, 0)
  else
    ((ls.highPriorityTotalTime : ℚ) / (ls.highPriorityTotalCount : ℚ) / 1000000,
     (ls.highPriorityMaxLatency : ℚ) / 1000000,
     (ls.highPriorityMinLatency : ℚ) / 1000000,
     ls.highPriorityBuckets,
     ls.highPriorityTotalCount)

/-- A finite sequence of `Record` calls, applied left to right; each sample
is a pair `(latencyNs, priority)`. -/
def recordAll (samples : List (Int × Int)) (ls : LatencyStats) : LatencyStats :=
  samples.foldl (fun acc s => Record acc s.1 s.2) ls

/-- The `Result` struct of stats.go: one statistics event. -/
structure Result where
  operation : String
  latency : Int
  priority : Int
  success : Bool
  isSent : Bool
  deriving DecidableEq

/-- The `Collector` struct of stats.go.  `startTime` and `lastPrintTime`
are wall-clock instants in seconds (`ℚ`, see header); `resultChan` is the
buffered channel, front of the list = next event to be consumed. -/
structure Collector where
  sensorDataStats : LatencyStats
  sensorRWStats : LatencyStats
  batchRWStats : LatencyStats
  queryStats : LatencyStats
  sensorDataSent : Int
  sensorRWSent : Int
  batchRWSent : Int
  querySent : Int
  sensorDataOps : Int
  sensorRWOps : Int
  batchRWOps : Int
  queryOps : Int
  sensorDataErrors : Int
  sensorRWErrors : Int
  batchRWErrors : Int
  queryErrors : Int
  startTime : ℚ
  lastPrintTime : ℚ
  lastSensorDataSent : Int
  lastSensorRWSent : Int
  lastBatchRWSent : Int
  lastQuerySent : Int
  lastSensorDataOps : Int
  lastSensorRWOps : Int
  lastBatchRWOps : Int
  lastQueryOps : Int
  resultChan : List Result

/-- Capacity of `resultChan`: `make(chan Result, 1000000)` in `NewCollector`. -/
def chanCap : Nat := 1000000

/-- `NewCollector` of stats.go, at wall-clock instant `now`: fresh
latency stats, zero counters, `startTime = lastPrintTime = now`, empty
channel.  (The consumer goroutine it spawns is modelled by the
`Action.processOne` steps of the trace semantics below.) -/
def NewCollector (now : ℚ) : Collector where
  sensorDataStats := NewLatencyStats
  sensorRWStats := NewLatencyStats
  batchRWStats := NewLatencyStats
  queryStats := NewLatencyStats
  sensorDataSent := 0
  sensorRWSent := 0
  batchRWSent := 0
  querySent := 0
  sensorDataOps := 0
  sensorRWOps := 0
  batchRWOps := 0
  queryOps := 0
  sensorDataErrors := 0
  sensorRWErrors := 0
  batchRWErrors := 0
  queryErrors := 0
  startTime := now
  lastPrintTime := now
  lastSensorDataSent := 0
  lastSensorRWSent := 0
  lastBatchRWSent := 0
  lastQuerySent := 0
  lastSensorDataOps := 0
  lastSensorRWOps := 0
  lastBatchRWOps := 0
  lastQueryOps := 0
  resultChan := []

/-- The non-blocking `select`/`default` send shared by the three push
methods: append to the channel when the buffer has room, silently drop
the event otherwise. -/
def pushEvent (sc : Collector) (r : Result) : Collector :=
  if sc.resultChan.length < chanCap then
    { sc with resultChan := sc.resultChan ++ [r] }
  else
    sc

/-- `PushResult` of stats.go (compatibility method, a completed event). -/
def PushResult (sc : Collector) (operation : String) (latency : Int)
    (priority : Int) (success : Bool) : Collector :=
  pushEvent sc ⟨operation, latency, priority, success, false⟩

/-- `PushSentEvent` of stats.go. -/
def PushSentEvent (sc : Collector) (operation : String) : Collector :=
  pushEvent sc ⟨operation, 0, 0, true, true⟩

/-- `PushCompletedResult` of stats.go. -/
def PushCompletedResult (sc : Collector) (operation : String) (latency : Int)
    (priority : Int) (success : Bool) : Collector :=
  pushEvent sc ⟨operation, latency, priority, success, false⟩

/-- `processResult` of stats.go: per-operation dispatch performed by the
consumer goroutine.  A `switch` with no matching case (and no `default`)
changes nothing. -/
def processResult (sc : Collector) (result : Result) : Collector :=
  if result.isSent then
    if result.operation = "sensor-data" then
      { sc with sensorDataSent := sc.sensorDataSent + 1 }
    else if result.operation = "sensor-rw" then
      { sc with sensorRWSent := sc.sensorRWSent + 1 }
    else if result.operation = "batch-rw" then
      { sc with batchRWSent := sc.batchRWSent + 1 }
    else if result.operation = "query" then
      { sc with querySent := sc.querySent + 1 }
    else
      sc
  else
    if result.operation = "sensor-data" then
      if result.success then
        { sc with sensorDataOps := sc.sensorDataOps + 1,
                  sensorDataStats := Record sc.sensorDataStats result.latency result.priority }
      else
        { sc with sensorDataErrors := sc.sensorDataErrors + 1 }
    else if result.operation = "sensor-rw" then
      if result.success then
        { sc with sensorRWOps := sc.sensorRWOps + 1,
                  sensorRWStats := Record sc.sensorRWStats result.latency result.priority }
      else
        { sc with sensorRWErrors := sc.sensorRWErrors + 1 }
    else if result.operation = "batch-rw" then
      if result.success then
        { sc with batchRWOps := sc.batchRWOps + 1,
                  batchRWStats := Record sc.batchRWStats result.latency result.priority }
      else
        { sc with batchRWErrors := sc.batchRWErrors + 1 }
    else if result.operation = "query" then
      if result.success then
        { sc with queryOps := sc.queryOps + 1,
                  queryStats := Record sc.queryStats result.latency result.priority }
      else
        { sc with queryErrors := sc.queryErrors + 1 }
    else
      sc

/-- `GetCurrentTotals` of stats.go:
`(totalSent, totalOps, totalErrors, pending)` with
`pending = totalSent - totalOps - totalErrors`. -/
def GetCurrentTotals (sc : Collector) : Int × Int × Int × Int :=
  let totalSent := sc.sensorDataSent + sc.sensorRWSent + sc.batchRWSent + sc.querySent
  let totalOps := sc.sensorDataOps + sc.sensorRWOps + sc.batchRWOps + sc.queryOps
  let totalErrors := sc.sensorDataErrors + sc.sensorRWErrors + sc.batchRWErrors + sc.queryErrors
  (totalSent, totalOps, totalErrors, totalSent - totalOps - totalErrors)

/-- Float division that records a zero divisor: `fdiv a 0 = none` (the
IEEE result would be non-finite), otherwise the exact quotient. -/
def fdiv (a b : ℚ) : Option ℚ :=
  if b = 0 then none else some (a / b)

/-- The four rate figures printed by `PrintRealtime`. -/
structure RealtimeRates where
  instantSendQPS : Option ℚ
  instantDoneQPS : Option ℚ
  avgSendQPS : Option ℚ
  avgDoneQPS : Option ℚ
  deriving DecidableEq

/-- `PrintRealtime` of stats.go at wall-clock instant `now`: computes the
instantaneous rates over `elapsed = now - lastPrintTime` and the
cumulative rates over `totalElapsed = now - startTime` (all four
divisions are performed unconditionally in the source, hence `fdiv`),
then overwrites the eight `last*` counters and `lastPrintTime`.
Returns the printed rates and the updated collector. -/
def PrintRealtime (sc : Collector) (now : ℚ) : RealtimeRates × Collector :=
  let elapsed : ℚ := now - sc.lastPrintTime
  let totalElapsed : ℚ := now - sc.startTime
  let totals := GetCurrentTotals sc
  let instantSendQPS := fdiv
    ((sc.sensorDataSent + sc.sensorRWSent + sc.batchRWSent + sc.querySent
      - sc.lastSensorDataSent - sc.lastSensorRWSent - sc.lastBatchRWSent - sc.lastQuerySent : Int) : ℚ)
    elapsed
  let instantDoneQPS := fdiv
    ((sc.sensorDataOps + sc.sensorRWOps + sc.batchRWOps + sc.queryOps
      - sc.lastSensorDataOps - sc.lastSensorRWOps - sc.lastBatchRWOps - sc.lastQueryOps : Int) : ℚ)
    elapsed
  let avgSendQPS := fdiv ((totals.1 : Int) : ℚ) totalElapsed
  let avgDoneQPS := fdiv ((totals.2.1 : Int) : ℚ) totalElapsed
  (⟨instantSendQPS, instantDoneQPS, avgSendQPS, avgDoneQPS⟩,
   { sc with
     lastSensorDataSent := sc.sensorDataSent
     lastSensorRWSent := sc.sensorRWSent
     lastBatchRWSent := sc.batchRWSent
     lastQuerySent := sc.querySent
     lastSensorDataOps := sc.sensorDataOps
     lastSensorRWOps := sc.sensorRWOps
     lastBatchRWOps := sc.batchRWOps
     lastQueryOps := sc.queryOps
     lastPrintTime := now })

/-- `PrintFinalReport` of stats.go performs no assignment to any field of
the collector or its `LatencyStats` (it only loads counters and calls the
read-only `GetStats`/`GetHighPriorityStats`/`GetCurrentTotals`), so its
state effect is the identity; the first component gathers the values it
reads and prints. -/
def PrintFinalReport (sc : Collector) :
    ((Int × Int × Int × Int) × (ℚ × ℚ × ℚ × List Int) × (ℚ × ℚ × ℚ × List Int)
      × (ℚ × ℚ × ℚ × List Int) × (ℚ × ℚ × ℚ × List Int)) × Collector :=
  ((GetCurrentTotals sc, GetStats sc.sensorDataStats, GetStats sc.sensorRWStats,
    GetStats sc.batchRWStats, GetStats sc.queryStats), sc)

/-- The operation-mix part of the `Config` struct of config.go.  The Go
field names end in `Ratio`; they are rendered here with a `Weight`
suffix (sensorDataWeight = `SensorDataRatio`, sensorRWWeight =
`SensorRWRatio`, batchRWWeight = `BatchRWRatio`, queryWeight =
`QueryRatio`, totalWeight = the derived field `totalRatio`, which
`calculateDerivedFields` sets to the sum of the four). -/
structure Config where
  sensorDataWeight : ℚ
  sensorRWWeight : ℚ
  batchRWWeight : ℚ
  queryWeight : ℚ
  totalWeight : ℚ
  deriving DecidableEq

/-- `GetOperationType` of config.go: scale the draw by `totalRatio`, then
walk the cumulative intervals, subtracting as in the source. -/
def GetOperationType (c : Config) (r : ℚ) : String :=
  let r1 := r * c.totalWeight
  if r1 < c.sensorDataWeight then "sensor-data"
  else
    let r2 := r1 - c.sensorDataWeight
    if r2 < c.sensorRWWeight then "sensor-rw"
    else
      let r3 := r2 - c.sensorRWWeight
      if r3 < c.batchRWWeight then "batch-rw"
      else "query"

/-- The four operation names `processResult` dispatches on. -/
def knownOps : List String := ["sensor-data", "sensor-rw", "batch-rw", "query"]

/-- The `Result` that `ExecuteOperation` of worker.go pushes in its
`default` branch for an unknown operation name:
`PushResult(operation, 0, 0, false)`, i.e. a failed completed event. -/
def unknownOpEvent (operation : String) : Result :=
  ⟨operation, 0, 0, false, false⟩

/-!
Trace semantics of the collector.  A run interleaves producer pushes
with single-consumer processing steps (`processResults` receiving one
event from the channel and dispatching it through `processResult`).
The `inv` tag on a push names the worker invocation that issued it; it
is a ghost value: `step` ignores it, it only parametrises the
well-formedness of a trace.
-/

/-- One scheduler step: a producer push or the consumer processing the
event at the front of the channel (a `processOne` on an empty channel is
the consumer merely blocking, a no-op). -/
inductive Action where
  | pushSent (inv : Nat) (op : String)
  | pushCompleted (inv : Nat) (op : String) (latency : Int) (priority : Int) (success : Bool)
  | processOne
  deriving DecidableEq

/-- Effect of one action on the collector. -/
def step (sc : Collector) : Action → Collector
  | .pushSent _ op => PushSentEvent sc op
  | .pushCompleted _ op latency priority success =>
      PushCompletedResult sc op latency priority success
  | .processOne =>
      match sc.resultChan with
      | [] => sc
      | r :: rest => processResult { sc with resultChan := rest } r

/-- Run a trace of actions from a collector state. -/
def runTrace (sc : Collector) (t : List Action) : Collector :=
  t.foldl step sc

/-- The collector of a fresh run (the wall-clock origin is irrelevant to
the counters). -/
def initCollector : Collector := NewCollector 0

/-- The event a push action offers to the channel (`none` for `processOne`). -/
def resultOf : Action → Option Result
  | .pushSent _ op => some ⟨op, 0, 0, true, true⟩
  | .pushCompleted _ op latency priority success => some ⟨op, latency, priority, success, false⟩
  | .processOne => none

/-- The sequence of events offered to the channel along a trace, in push
order (dropped or not). -/
def pushedResults (t : List Action) : List Result :=
  t.filterMap resultOf

/-- Well-formedness of the producers in a trace, checked left to right:
`s` holds the invocations that have already pushed their Sent event
(with its operation), `d` those that have already pushed their Completed
event.  Each invocation pushes at most one Sent and at most one
Completed, the Sent first, both for the same operation — exactly the
protocol of the four `do…` worker functions. -/
def WFAux (s : List (Nat × String)) (d : List Nat) : List Action → Bool
  | [] => true
  | .pushSent inv op :: rest =>
      !decide (inv ∈ s.map Prod.fst) && WFAux ((inv, op) :: s) d rest
  | .pushCompleted inv op _ _ _ :: rest =>
      decide ((inv, op) ∈ s) && !decide (inv ∈ d) && WFAux s (inv :: d) rest
  | .processOne :: rest => WFAux s d rest

/-- A trace in which every invocation pushes its Sent event before its
Completed event (and at most one of each). -/
def WF (t : List Action) : Bool :=
  WFAux [] [] t

/-- NoDropAux sc t: along the run of `t` from `sc`, every push found a
non-full channel, so no event was dropped. -/
def NoDropAux (sc : Collector) : List Action → Bool
  | [] => true
  | .pushSent inv op :: rest =>
      decide (sc.resultChan.length < chanCap) &&
        NoDropAux (step sc (.pushSent inv op)) rest
  | .pushCompleted inv op latency priority success :: rest =>
      decide (sc.resultChan.length < chanCap) &&
        NoDropAux (step sc (.pushCompleted inv op latency priority success)) rest
  | .processOne :: rest => NoDropAux (step sc .processOne) rest

/-- A run from the fresh collector in which no push was dropped. -/
def NoDrop (t : List Action) : Bool :=
  NoDropAux initCollector t

/-- Boolean test: `r` is a Sent event for operation `op`. -/
def isSentFor (op : String) (r : Result) : Bool :=
  r.isSent && decide (r.operation = op)

/-- Boolean test: `r` is a Completed event for operation `op`. -/
def isCompletedFor (op : String) (r : Result) : Bool :=
  !r.isSent && decide (r.operation = op)

/-- Number of Sent events for `op` in a list of events. -/
def sentCount (op : String) (l : List Result) : Nat :=
  l.countP (isSentFor op)

/-- Number of Completed events for `op` in a list of events. -/
def completedCount (op : String) (l : List Result) : Nat :=
  l.countP (isCompletedFor op)

/-- Number of invocations that, according to the well-formedness state
`(s, d)`, have pushed a Sent event for `op` but no Completed event yet. -/
def openCount (op : String) (s : List (Nat × String)) (d : List Nat) : Nat :=
  s.countP (fun x => decide (x.2 = op) && !decide (x.1 ∈ d))

/-- The collector's twelve counters agree with the event sequence the
consumer has processed so far: each sent counter counts the processed
Sent events of its operation, and each completed+error counter pair
counts the processed Completed events of its operation. -/
def CounterInv (sc : Collector) (processed : List Result) : Prop :=
  sc.sensorDataSent = (sentCount "sensor-data" processed : Int) ∧
  sc.sensorRWSent = (sentCount "sensor-rw" processed : Int) ∧
  sc.batchRWSent = (sentCount "batch-rw" processed : Int) ∧
  sc.querySent = (sentCount "query" processed : Int) ∧
  sc.sensorDataOps + sc.sensorDataErrors = (completedCount "sensor-data" processed : Int) ∧
  sc.sensorRWOps + sc.sensorRWErrors = (completedCount "sensor-rw" processed : Int) ∧
  sc.batchRWOps + sc.batchRWErrors = (completedCount "batch-rw" processed : Int) ∧
  sc.queryOps + sc.queryErrors = (completedCount "query" processed : Int)

/-- The per-operation completed counter selected by the name that
`processResult` dispatches on. -/
def opsCounter (sc : Collector) (op : String) : Int :=
  if op = "sensor-data" then sc.sensorDataOps
  else if op = "sensor-rw" then sc.sensorRWOps
  else if op = "batch-rw" then sc.batchRWOps
  else sc.queryOps

/-- The per-operation error counter. -/
def errCounter (sc : Collector) (op : String) : Int :=
  if op = "sensor-data" then sc.sensorDataErrors
  else if op = "sensor-rw" then sc.sensorRWErrors
  else if op = "batch-rw" then sc.batchRWErrors
  else sc.queryErrors

/-- The per-operation `LatencyStats` instance. -/
def statsFor (sc : Collector) (op : String) : LatencyStats :=
  if op = "sensor-data" then sc.sensorDataStats
  else if op = "sensor-rw" then sc.sensorRWStats
  else if op = "batch-rw" then sc.batchRWStats
  else sc.queryStats

/-- The Sent event every counterexample invocation pushes. -/
def cexSent : Result := ⟨"sensor-data", 0, 0, true, true⟩

/-- The successful Completed event of the counterexample invocations. -/
def cexCompleted : Result := ⟨"sensor-data", 0, 0, true, false⟩

/-- `n` consecutive consumer steps. -/
def procs (n : Nat) : List Action :=
  List.replicate n Action.processOne

/-- A schedulable trace on which `GetCurrentTotals` reports a negative
pending value, although every invocation pushes its Sent event before
its Completed event.  Invocations `0 … chanCap-1` push their Sent events,
filling the queue; invocation `chanCap`'s Sent push is dropped (queue
full); the consumer drains the queue (counting `chanCap` sents); the
Completed events of invocation `chanCap` and of invocations
`0 … chanCap-2` are then pushed, filling the queue again, so invocation
`chanCap+1`'s Sent push is dropped too; the consumer drains again
(counting `chanCap` completions); finally invocation `chanCap+1`'s
Completed event is pushed and processed, bringing the completed count to
`chanCap + 1 >` sent count `chanCap`. -/
def cexTrace : List Action :=
  (List.range chanCap).map (fun i => Action.pushSent i "sensor-data") ++
    (Action.pushSent chanCap "sensor-data" ::
      (procs chanCap ++
        (Action.pushCompleted chanCap "sensor-data" 0 0 true ::
          ((List.range (chanCap - 1)).map
              (fun i => Action.pushCompleted i "sensor-data" 0 0 true) ++
            (Action.pushSent (chanCap + 1) "sensor-data" ::
              (procs chanCap ++
                [Action.pushCompleted (chanCap + 1) "sensor-data" 0 0 true,
                 Action.processOne]))))))

/-- Collector state after the first `chanCap` Sent pushes of `cexTrace`. -/
def cexS1 : Collector :=
  { initCollector with resultChan := List.replicate chanCap cexSent }

/-- State after the consumer drains the `chanCap` queued Sent events. -/
def cexS2 : Collector :=
  { initCollector with resultChan := [], sensorDataSent := (chanCap : Int) }

/-- State after invocation `chanCap`'s Completed event is enqueued. -/
def cexS3 : Collector :=
  { initCollector with resultChan := [cexCompleted], sensorDataSent := (chanCap : Int) }

/-- State after the Completed events of invocations `0 … chanCap-2` refill
the queue. -/
def cexS4 : Collector :=
  { initCollector with
      resultChan := List.replicate chanCap cexCompleted,
      sensorDataSent := (chanCap : Int) }

/-- State after the consumer drains the `chanCap` queued Completed events. -/
def cexS5 : Collector :=
  { initCollector with
      resultChan := [],
      sensorDataSent := (chanCap : Int),
      sensorDataOps := (chanCap : Int),
      sensorDataStats := (fun ls => Record ls 0 0)^[chanCap] NewLatencyStats }

/-! ### Basic lemmas about the histogram operations -/

theorem incAt_length (xs : List Int) (n : Nat) : (incAt xs n).length = xs.length := by
  induction xs generalizing n with
  | nil => rfl
  | cons x xs ih => cases n with
    | zero => rfl
    | succ n => simp [incAt, ih]

theorem incAt_sum (xs : List Int) (n : Nat) (h : n < xs.length) :
    (incAt xs n).sum = xs.sum + 1 := by
  induction xs generalizing n with
  | nil => simp at h
  | cons x xs ih =>
    cases n with
    | zero => simp [incAt]; ring
    | succ n =>
      simp only [incAt, List.sum_cons]
      rw [ih n (by simpa using h)]
      ring

theorem incAt_getD (xs : List Int) (n : Nat) (i : Nat) (h : n < xs.length) :
    (incAt xs n).getD i 0 = xs.getD i 0 + (if i = n then 1 else 0) := by
  induction xs generalizing n i with
  | nil => simp at h
  | cons x xs ih =>
    cases n with
    | zero =>
      cases i with
      | zero => simp [incAt]
      | succ i => simp [incAt]
    | succ n =>
      cases i with
      | zero => simp [incAt]
      | succ i =>
        simp only [incAt, List.getD_cons_succ]
        rw [ih n i (by simpa using h)]
        simp

theorem findBucket_le (ms : ℚ) (l : List ℚ) : findBucket ms l ≤ l.length := by
  induction l with
  | nil => simp [findBucket]
  | cons b bs ih =>
    simp only [findBucket, List.length_cons]
    split
    · exact Nat.zero_le _
    · exact Nat.succ_le_succ ih

theorem findBucket_lt_of_index_lt (ms : ℚ) (l : List ℚ) (i : Nat)
    (h : i < findBucket ms l) : l.getD i 0 < ms := by
  induction l generalizing i with
  | nil => simp [findBucket] at h
  | cons b bs ih =>
    by_cases hb : ms ≤ b
    · simp [findBucket, hb] at h
    · rw [findBucket, if_neg hb] at h
      cases i with
      | zero => simpa using not_le.mp hb
      | succ i =>
        simp only [List.getD_cons_succ]
        exact ih i (Nat.lt_of_succ_lt_succ h)

theorem findBucket_ge_of_lt_length (ms : ℚ) (l : List ℚ)
    (h : findBucket ms l < l.length) : ms ≤ l.getD (findBucket ms l) 0 := by
  induction l with
  | nil => simp at h
  | cons b bs ih =>
    by_cases hb : ms ≤ b
    · simp [findBucket, hb]
    · rw [findBucket, if_neg hb] at h ⊢
      simp only [List.getD_cons_succ]
      exact ih (by simpa using h)

theorem bucketIndex_le (latencyNs : Int) : bucketIndex latencyNs ≤ 12 := by
  have h := findBucket_le ((latencyNs : ℚ) / 1000000) latencyBuckets
  simpa [bucketIndex, latencyBuckets] using h

theorem Record_buckets (ls : LatencyStats) (latencyNs priority : Int) :
    (Record ls latencyNs priority).buckets = incAt ls.buckets (bucketIndex latencyNs) := by
  by_cases hp : priority ≥ 3 <;> simp [Record, hp]

theorem Record_totalCount (ls : LatencyStats) (latencyNs priority : Int) :
    (Record ls latencyNs priority).totalCount = ls.totalCount + 1 := by
  by_cases hp : priority ≥ 3 <;> simp [Record, hp]

theorem Record_hpTotalCount (ls : LatencyStats) (latencyNs priority : Int) :
    (Record ls latencyNs priority).highPriorityTotalCount =
      if priority ≥ 3 then ls.highPriorityTotalCount + 1 else ls.highPriorityTotalCount := by
  by_cases hp : priority ≥ 3 <;> simp [Record, hp]

/-- The three facts preserved by every single `Record` call. -/
theorem Record_invariant (ls : LatencyStats) (latencyNs priority : Int)
    (h1 : ls.buckets.length = 13) (h2 : ls.buckets.sum = ls.totalCount)
    (h3 : ls.highPriorityTotalCount ≤ ls.totalCount) :
    (Record ls latencyNs priority).buckets.length = 13 ∧
    (Record ls latencyNs priority).buckets.sum = (Record ls latencyNs priority).totalCount ∧
    (Record ls latencyNs priority).highPriorityTotalCount ≤
      (Record ls latencyNs priority).totalCount := by
  have hidx : bucketIndex latencyNs < ls.buckets.length := by
    have := bucketIndex_le latencyNs
    omega
  refine ⟨?_, ?_, ?_⟩
  · rw [Record_buckets, incAt_length, h1]
  · rw [Record_buckets, Record_totalCount, incAt_sum _ _ hidx, h2]
  · rw [Record_hpTotalCount, Record_totalCount]
    split <;> omega

theorem recordAll_invariant (samples : List (Int × Int)) (ls : LatencyStats)
    (h1 : ls.buckets.length = 13) (h2 : ls.buckets.sum = ls.totalCount)
    (h3 : ls.highPriorityTotalCount ≤ ls.totalCount) :
    (recordAll samples ls).buckets.length = 13 ∧
    (recordAll samples ls).buckets.sum = (recordAll samples ls).totalCount ∧
    (recordAll samples ls).highPriorityTotalCount ≤ (recordAll samples ls).totalCount := by
  induction samples generalizing ls with
  | nil => exact ⟨h1, h2, h3⟩
  | cons s rest ih =>
    have hstep := Record_invariant ls s.1 s.2 h1 h2 h3
    exact ih (Record ls s.1 s.2) hstep.1 hstep.2.1 hstep.2.2

/-! ### C1 -/

/-- C1: after any finite sequence of `Record(latency, priority)` calls on
a `LatencyStats` created by `NewLatencyStats`, the sum of the 13 bucket
counters equals `totalCount`, and `highPriorityTotalCount ≤ totalCount`. -/
theorem c1_histogram_invariant (samples : List (Int × Int)) :
    (recordAll samples NewLatencyStats).buckets.sum =
      (recordAll samples NewLatencyStats).totalCount ∧
    (recordAll samples NewLatencyStats).highPriorityTotalCount ≤
      (recordAll samples NewLatencyStats).totalCount := by
  have h := recordAll_invariant samples NewLatencyStats
    (by simp [NewLatencyStats]) (by simp [NewLatencyStats]) (by simp [NewLatencyStats])
  exact ⟨h.2.1, h.2.2⟩

/-! ### C2 -/

/-- C2: a `Record` call increments exactly one regular bucket, namely the
one at the smallest index whose millisecond boundary is `≥` the latency
in milliseconds, or the overflow bucket (index 12) when the latency
exceeds the last boundary 5000 ms. -/
theorem c2_bucket_selection (ls : LatencyStats) (latencyNs priority : Int)
    (hlen : ls.buckets.length = 13) :
    ∃ j : Nat, j < 13 ∧
      (∀ i < 13, (Record ls latencyNs priority).buckets.getD i 0 =
        ls.buckets.getD i 0 + (if i = j then 1 else 0)) ∧
      (((latencyNs : ℚ) / 1000000 ≤ 5000 ∧ j < 12 ∧
          (latencyNs : ℚ) / 1000000 ≤ latencyBuckets.getD j 0 ∧
          (∀ i < j, latencyBuckets.getD i 0 < (latencyNs : ℚ) / 1000000)) ∨
        (5000 < (latencyNs : ℚ) / 1000000 ∧ j = 12)) := by
  set ms : ℚ := (latencyNs : ℚ) / 1000000 with hms
  refine ⟨bucketIndex latencyNs, by have := bucketIndex_le latencyNs; omega, ?_, ?_⟩
  · intro i _
    rw [Record_buckets]
    exact incAt_getD _ _ _ (by have := bucketIndex_le latencyNs; omega)
  · have hlb : latencyBuckets.length = 12 := by rfl
    have hble : ∀ i < 12, latencyBuckets.getD i 0 ≤ 5000 := by decide
    by_cases hcase : ms ≤ 5000
    · left
      have hlt : bucketIndex latencyNs < 12 := by
        rcases Nat.lt_or_ge (bucketIndex latencyNs) 12 with h | h
        · exact h
        · exfalso
          have h12 : (11 : Nat) < bucketIndex latencyNs := by omega
          have := findBucket_lt_of_index_lt ms latencyBuckets 11 (by
            simpa [bucketIndex, hms] using h12)
          rw [show latencyBuckets.getD 11 0 = 5000 from rfl] at this
          linarith
      refine ⟨hcase, hlt, ?_, ?_⟩
      · have := findBucket_ge_of_lt_length ms latencyBuckets (by
          simpa [bucketIndex, hms, hlb] using hlt)
        simpa [bucketIndex, hms] using this
      · intro i hi
        exact findBucket_lt_of_index_lt ms latencyBuckets i (by
          simpa [bucketIndex, hms] using hi)
    · right
      have hgt : 5000 < ms := lt_of_not_ge hcase
      refine ⟨hgt, ?_⟩
      have hle := bucketIndex_le latencyNs
      rcases Nat.lt_or_ge (bucketIndex latencyNs) 12 with h | h
      · exfalso
        have := findBucket_ge_of_lt_length ms latencyBuckets (by
          simpa [bucketIndex, hms, hlb] using h)
        have hb := hble (bucketIndex latencyNs) h
        have : ms ≤ latencyBuckets.getD (bucketIndex latencyNs) 0 := by
          simpa [bucketIndex, hms] using this
        linarith
      · omega

/-! ### C3 -/

/-- C3: the three push methods never block: on a full queue they return
the collector unchanged (the event is silently dropped, no error), and
otherwise they append exactly the pushed event to the queue, changing no
other field; in both cases the call is a total function. -/
theorem c3_push_never_blocks (sc : Collector) (op : String) (latency priority : Int)
    (success : Bool) :
    (chanCap ≤ sc.resultChan.length →
      PushSentEvent sc op = sc ∧
      PushCompletedResult sc op latency priority success = sc ∧
      PushResult sc op latency priority success = sc) ∧
    (sc.resultChan.length < chanCap →
      PushSentEvent sc op =
        { sc with resultChan := sc.resultChan ++ [⟨op, 0, 0, true, true⟩] } ∧
      PushCompletedResult sc op latency priority success =
        { sc with resultChan := sc.resultChan ++ [⟨op, latency, priority, success, false⟩] } ∧
      PushResult sc op latency priority success =
        { sc with resultChan := sc.resultChan ++ [⟨op, latency, priority, success, false⟩] }) := by
  constructor
  · intro h
    have h' : ¬ sc.resultChan.length < chanCap := not_lt.mpr h
    simp [PushSentEvent, PushCompletedResult, PushResult, pushEvent, h']
  · intro h
    simp [PushSentEvent, PushCompletedResult, PushResult, pushEvent, h]

/-- Witness for C3: on the fresh collector (empty queue, not full) a
Sent push for "query" appends exactly that event. -/
theorem c3_push_never_blocks_witness :
    initCollector.resultChan.length < chanCap ∧
    PushSentEvent initCollector "query" =
      { initCollector with resultChan := initCollector.resultChan ++ [⟨"query", 0, 0, true, true⟩] } :=
  ⟨by decide, ((c3_push_never_blocks initCollector "query" 0 0 true).2 (by decide)).1⟩

/-! ### C5 -/

/-- C5: for a Completed event on one of the four known operations,
success and failure are mutually exclusive: success increments that
operation's completed counter and records the latency in that
operation's `LatencyStats`; failure increments that operation's error
counter and leaves every `LatencyStats` instance unchanged. -/
theorem c5_completed_dispatch (sc : Collector) (r : Result)
    (hsent : r.isSent = false) (hop : r.operation ∈ knownOps) :
    (r.success = true →
      opsCounter (processResult sc r) r.operation = opsCounter sc r.operation + 1 ∧
      errCounter (processResult sc r) r.operation = errCounter sc r.operation ∧
      statsFor (processResult sc r) r.operation =
        Record (statsFor sc r.operation) r.latency r.priority) ∧
    (r.success = false →
      errCounter (processResult sc r) r.operation = errCounter sc r.operation + 1 ∧
      opsCounter (processResult sc r) r.operation = opsCounter sc r.operation ∧
      ∀ op', statsFor (processResult sc r) op' = statsFor sc op') := by
  simp only [knownOps, List.mem_cons, List.mem_singleton, List.not_mem_nil, or_false] at hop
  rcases hop with h | h | h | h <;>
    cases hs : r.success <;>
      simp [processResult, h, hs, hsent, opsCounter, errCounter, statsFor]

/-- Witness for C5: a successful "batch-rw" completion with latency 7 ns,
priority 1, on the fresh collector. -/
theorem c5_completed_dispatch_witness :
    ((⟨"batch-rw", 7, 1, true, false⟩ : Result).success = true →
      opsCounter (processResult initCollector ⟨"batch-rw", 7, 1, true, false⟩) "batch-rw" =
        opsCounter initCollector "batch-rw" + 1 ∧
      errCounter (processResult initCollector ⟨"batch-rw", 7, 1, true, false⟩) "batch-rw" =
        errCounter initCollector "batch-rw" ∧
      statsFor (processResult initCollector ⟨"batch-rw", 7, 1, true, false⟩) "batch-rw" =
        Record (statsFor initCollector "batch-rw") 7 1) ∧
    ((⟨"batch-rw", 7, 1, true, false⟩ : Result).success = false →
      errCounter (processResult initCollector ⟨"batch-rw", 7, 1, true, false⟩) "batch-rw" =
        errCounter initCollector "batch-rw" + 1 ∧
      opsCounter (processResult initCollector ⟨"batch-rw", 7, 1, true, false⟩) "batch-rw" =
        opsCounter initCollector "batch-rw" ∧
      ∀ op', statsFor (processResult initCollector ⟨"batch-rw", 7, 1, true, false⟩) op' =
        statsFor initCollector op') :=
  c5_completed_dispatch initCollector ⟨"batch-rw", 7, 1, true, false⟩ rfl (by decide)

/-! ### C6 -/

/-- C6: `GetStats` and `GetHighPriorityStats` never divide by zero: with
a zero count they return average 0, max 0, min 0 and an all-zero bucket
array; with a positive count the returned average is the total time
divided by the count, converted to milliseconds. -/
theorem c6_no_division_by_zero (ls : LatencyStats) :
    (ls.totalCount = 0 →
      GetStats ls = (0, 0, 0, List.replicate ls.buckets.length 0)) ∧
    (0 < ls.totalCount →
      (GetStats ls).1 = (ls.totalTime : ℚ) / (ls.totalCount : ℚ) / 1000000) ∧
    (ls.highPriorityTotalCount = 0 →
      GetHighPriorityStats ls =
        (0, 0, 0, List.replicate ls.highPriorityBuckets.length 0, 0)) ∧
    (0 < ls.highPriorityTotalCount →
      (GetHighPriorityStats ls).1 =
        (ls.highPriorityTotalTime : ℚ) / (ls.highPriorityTotalCount : ℚ) / 1000000) := by
  refine ⟨fun h => by simp [GetStats, h], fun h => ?_, fun h => by simp [GetHighPriorityStats, h],
    fun h => ?_⟩
  · rw [GetStats, if_neg (by omega)]
  · rw [GetHighPriorityStats, if_neg (by omega)]

/-- Witness for C6: a histogram with one 2000000 ns sample has average
2 ms, and its (empty) high-priority side returns all zeros. -/
theorem c6_no_division_by_zero_witness :
    ((Record NewLatencyStats 2000000 0).totalCount = 0 →
      GetStats (Record NewLatencyStats 2000000 0) =
        (0, 0, 0, List.replicate (Record NewLatencyStats 2000000 0).buckets.length 0)) ∧
    (0 < (Record NewLatencyStats 2000000 0).totalCount →
      (GetStats (Record NewLatencyStats 2000000 0)).1 =
        ((Record NewLatencyStats 2000000 0).totalTime : ℚ) /
          ((Record NewLatencyStats 2000000 0).totalCount : ℚ) / 1000000) ∧
    ((Record NewLatencyStats 2000000 0).highPriorityTotalCount = 0 →
      GetHighPriorityStats (Record NewLatencyStats 2000000 0) =
        (0, 0, 0, List.replicate (Record NewLatencyStats 2000000 0).highPriorityBuckets.length 0, 0)) ∧
    (0 < (Record NewLatencyStats 2000000 0).highPriorityTotalCount →
      (GetHighPriorityStats (Record NewLatencyStats 2000000 0)).1 =
        ((Record NewLatencyStats 2000000 0).highPriorityTotalTime : ℚ) /
          ((Record NewLatencyStats 2000000 0).highPriorityTotalCount : ℚ) / 1000000) :=
  c6_no_division_by_zero (Record NewLatencyStats 2000000 0)

/-! ### C9 -/

/-- C9: `GetOperationType` scales the draw by the weight sum and returns
the first operation whose cumulative-weight interval contains the scaled
draw, by successive subtraction; the weights need not sum to 1. -/
theorem c9_operation_selection (c : Config) (r : ℚ)
    (htot : c.totalWeight = c.sensorDataWeight + c.sensorRWWeight + c.batchRWWeight + c.queryWeight)
    (hpos : 0 < c.totalWeight) (hr0 : 0 ≤ r) (hr1 : r < 1) :
    (GetOperationType c r = "sensor-data" ↔ r * c.totalWeight < c.sensorDataWeight) ∧
    (GetOperationType c r = "sensor-rw" ↔
      (c.sensorDataWeight ≤ r * c.totalWeight ∧
       r * c.totalWeight - c.sensorDataWeight < c.sensorRWWeight)) ∧
    (GetOperationType c r = "batch-rw" ↔
      (c.sensorDataWeight ≤ r * c.totalWeight ∧
       c.sensorRWWeight ≤ r * c.totalWeight - c.sensorDataWeight ∧
       r * c.totalWeight - c.sensorDataWeight - c.sensorRWWeight < c.batchRWWeight)) ∧
    (GetOperationType c r = "query" ↔
      (c.sensorDataWeight ≤ r * c.totalWeight ∧
       c.sensorRWWeight ≤ r * c.totalWeight - c.sensorDataWeight ∧
       c.batchRWWeight ≤ r * c.totalWeight - c.sensorDataWeight - c.sensorRWWeight)) := by
  simp only [GetOperationType]
  split_ifs with h1 h2 h3
  · refine ⟨by simp [h1], ?_, ?_, ?_⟩
    · simp only [String.reduceEq, false_iff, not_and]
      intro ha
      linarith
    · simp only [String.reduceEq, false_iff, not_and]
      intro ha
      linarith
    · simp only [String.reduceEq, false_iff, not_and]
      intro ha
      linarith
  · refine ⟨by simp only [String.reduceEq, false_iff]; exact h1, by simp [not_lt.mp h1, h2], ?_, ?_⟩
    · simp only [String.reduceEq, false_iff, not_and]
      intro ha hb
      linarith
    · simp only [String.reduceEq, false_iff, not_and]
      intro ha hb
      linarith
  · refine ⟨by simp only [String.reduceEq, false_iff]; exact h1, ?_,
      by simp [not_lt.mp h1, not_lt.mp h2, h3], ?_⟩
    · simp only [String.reduceEq, false_iff, not_and]
      intro ha hb
      exact absurd hb h2
    · simp only [String.reduceEq, false_iff, not_and]
      intro ha hb
      intro hc
      linarith
  · refine ⟨by simp only [String.reduceEq, false_iff]; exact h1, ?_, ?_,
      by simp [not_lt.mp h1, not_lt.mp h2, not_lt.mp h3]⟩
    · simp only [String.reduceEq, false_iff, not_and]
      intro ha hb
      exact absurd hb h2
    · simp only [String.reduceEq, false_iff, not_and]
      intro ha hb
      intro hc
      exact absurd hc h3

/-- Witness for C9 at the default configuration ratios 0.7/0.2/0.05/0.05
(weight sum 1) and draw 1/2, which selects "sensor-data". -/
theorem c9_operation_selection_witness :
    (GetOperationType ⟨7/10, 1/5, 1/20, 1/20, 1⟩ (1/2) = "sensor-data" ↔
      (1/2 : ℚ) * (1 : ℚ) < 7/10) ∧
    (GetOperationType ⟨7/10, 1/5, 1/20, 1/20, 1⟩ (1/2) = "sensor-rw" ↔
      ((7/10 : ℚ) ≤ 1/2 * 1 ∧ (1/2 : ℚ) * 1 - 7/10 < 1/5)) ∧
    (GetOperationType ⟨7/10, 1/5, 1/20, 1/20, 1⟩ (1/2) = "batch-rw" ↔
      ((7/10 : ℚ) ≤ 1/2 * 1 ∧ (1/5 : ℚ) ≤ 1/2 * 1 - 7/10 ∧
       (1/2 : ℚ) * 1 - 7/10 - 1/5 < 1/20)) ∧
    (GetOperationType ⟨7/10, 1/5, 1/20, 1/20, 1⟩ (1/2) = "query" ↔
      ((7/10 : ℚ) ≤ 1/2 * 1 ∧ (1/5 : ℚ) ≤ 1/2 * 1 - 7/10 ∧
       (1/20 : ℚ) ≤ 1/2 * 1 - 7/10 - 1/5)) :=
  c9_operation_selection ⟨7/10, 1/5, 1/20, 1/20, 1⟩ (1/2) (by norm_num) (by norm_num)
    (by norm_num) (by norm_num)

/-! ### C7 -/

/-- Counterexample to C7 as stated: `PrintRealtime` has no guard on
`elapsed = now - lastPrintTime`.  Called at the very instant of the
previous snapshot (elapsed 0, here on a fresh collector), both
instantaneous-rate computations perform a division whose divisor is
zero (`none` marks the zero-divisor division, whose IEEE value is
non-finite) — contradicting the claim that a defensive guard prevents
the division. -/
theorem c7_zero_elapsed_divides :
    (PrintRealtime (NewCollector 0) 0).1.instantSendQPS = none ∧
    (PrintRealtime (NewCollector 0) 0).1.instantDoneQPS = none := by
  constructor <;> simp [PrintRealtime, fdiv, NewCollector]

/-- C7 amended: `PrintRealtime` has no zero-elapsed guard — when the
time since the last snapshot is zero the instantaneous-rate divisions
are performed with a zero divisor (yielding a non-finite IEEE value,
not a crash); whenever the elapsed time is nonzero the instantaneous
rate equals (currentCount - countAtLastSnapshot)/secondsSinceLastSnapshot,
and whenever the time since start is nonzero the cumulative rate equals
currentCount/secondsSinceStart. -/
theorem c7_rate_computation (sc : Collector) (now : ℚ) :
    (now - sc.lastPrintTime = 0 →
      (PrintRealtime sc now).1.instantSendQPS = none ∧
      (PrintRealtime sc now).1.instantDoneQPS = none) ∧
    (now - sc.lastPrintTime ≠ 0 →
      (PrintRealtime sc now).1.instantSendQPS =
        some (((sc.sensorDataSent + sc.sensorRWSent + sc.batchRWSent + sc.querySent
          - sc.lastSensorDataSent - sc.lastSensorRWSent - sc.lastBatchRWSent
          - sc.lastQuerySent : Int) : ℚ) / (now - sc.lastPrintTime)) ∧
      (PrintRealtime sc now).1.instantDoneQPS =
        some (((sc.sensorDataOps + sc.sensorRWOps + sc.batchRWOps + sc.queryOps
          - sc.lastSensorDataOps - sc.lastSensorRWOps - sc.lastBatchRWOps
          - sc.lastQueryOps : Int) : ℚ) / (now - sc.lastPrintTime))) ∧
    (now - sc.startTime ≠ 0 →
      (PrintRealtime sc now).1.avgSendQPS =
        some (((sc.sensorDataSent + sc.sensorRWSent + sc.batchRWSent + sc.querySent : Int) : ℚ) /
          (now - sc.startTime)) ∧
      (PrintRealtime sc now).1.avgDoneQPS =
        some (((sc.sensorDataOps + sc.sensorRWOps + sc.batchRWOps + sc.queryOps : Int) : ℚ) /
          (now - sc.startTime))) := by
  refine ⟨fun h => ?_, fun h => ?_, fun h => ?_⟩
  · constructor <;> simp [PrintRealtime, fdiv, h]
  · constructor <;> simp [PrintRealtime, fdiv, h]
  · constructor <;> simp [PrintRealtime, GetCurrentTotals, fdiv, h]

/-- Witness for C7 (amended) on a fresh collector observed one second
after start: both elapsed times are 1, so all four rates are the plain
quotients. -/
theorem c7_rate_computation_witness :
    ((1 : ℚ) - (NewCollector 0).lastPrintTime = 0 →
      (PrintRealtime (NewCollector 0) 1).1.instantSendQPS = none ∧
      (PrintRealtime (NewCollector 0) 1).1.instantDoneQPS = none) ∧
    ((1 : ℚ) - (NewCollector 0).lastPrintTime ≠ 0 →
      (PrintRealtime (NewCollector 0) 1).1.instantSendQPS =
        some ((((NewCollector 0).sensorDataSent + (NewCollector 0).sensorRWSent
          + (NewCollector 0).batchRWSent + (NewCollector 0).querySent
          - (NewCollector 0).lastSensorDataSent - (NewCollector 0).lastSensorRWSent
          - (NewCollector 0).lastBatchRWSent - (NewCollector 0).lastQuerySent : Int) : ℚ) /
          ((1 : ℚ) - (NewCollector 0).lastPrintTime)) ∧
      (PrintRealtime (NewCollector 0) 1).1.instantDoneQPS =
        some ((((NewCollector 0).sensorDataOps + (NewCollector 0).sensorRWOps
          + (NewCollector 0).batchRWOps + (NewCollector 0).queryOps
          - (NewCollector 0).lastSensorDataOps - (NewCollector 0).lastSensorRWOps
          - (NewCollector 0).lastBatchRWOps - (NewCollector 0).lastQueryOps : Int) : ℚ) /
          ((1 : ℚ) - (NewCollector 0).lastPrintTime))) ∧
    ((1 : ℚ) - (NewCollector 0).startTime ≠ 0 →
      (PrintRealtime (NewCollector 0) 1).1.avgSendQPS =
        some ((((NewCollector 0).sensorDataSent + (NewCollector 0).sensorRWSent
          + (NewCollector 0).batchRWSent + (NewCollector 0).querySent : Int) : ℚ) /
          ((1 : ℚ) - (NewCollector 0).startTime)) ∧
      (PrintRealtime (NewCollector 0) 1).1.avgDoneQPS =
        some ((((NewCollector 0).sensorDataOps + (NewCollector 0).sensorRWOps
          + (NewCollector 0).batchRWOps + (NewCollector 0).queryOps : Int) : ℚ) /
          ((1 : ℚ) - (NewCollector 0).startTime))) :=
  c7_rate_computation (NewCollector 0) 1

/-! ### C8 -/

/-- Counterexample to C8 as stated: `PrintRealtime` is not read-only.
On a collector that has counted five sent "sensor-data" events, one
`PrintRealtime` call changes `lastSensorDataSent` (from 0 to 5) and
`lastPrintTime` (from 0 to 2), so not every field equals its value
before the call. -/
theorem c8_printrealtime_mutates :
    (PrintRealtime { NewCollector 0 with sensorDataSent := 5 } 2).2.lastSensorDataSent ≠
      ({ NewCollector 0 with sensorDataSent := 5 } : Collector).lastSensorDataSent ∧
    (PrintRealtime { NewCollector 0 with sensorDataSent := 5 } 2).2.lastPrintTime ≠
      ({ NewCollector 0 with sensorDataSent := 5 } : Collector).lastPrintTime := by
  constructor <;> decide

/-- C8 amended: snapshot rendering never touches the measured state —
`PrintRealtime` leaves every histogram, every sent/completed/error
counter, the start time and the event queue unchanged, mutating only
the snapshot bookkeeping (the eight `last*` counters, which it sets to
the current counters, and `lastPrintTime`, which it sets to `now`);
`PrintFinalReport` performs no state mutation at all. -/
theorem c8_snapshot_readonly (sc : Collector) (now : ℚ) :
    (PrintRealtime sc now).2.sensorDataStats = sc.sensorDataStats ∧
    (PrintRealtime sc now).2.sensorRWStats = sc.sensorRWStats ∧
    (PrintRealtime sc now).2.batchRWStats = sc.batchRWStats ∧
    (PrintRealtime sc now).2.queryStats = sc.queryStats ∧
    (PrintRealtime sc now).2.sensorDataSent = sc.sensorDataSent ∧
    (PrintRealtime sc now).2.sensorRWSent = sc.sensorRWSent ∧
    (PrintRealtime sc now).2.batchRWSent = sc.batchRWSent ∧
    (PrintRealtime sc now).2.querySent = sc.querySent ∧
    (PrintRealtime sc now).2.sensorDataOps = sc.sensorDataOps ∧
    (PrintRealtime sc now).2.sensorRWOps = sc.sensorRWOps ∧
    (PrintRealtime sc now).2.batchRWOps = sc.batchRWOps ∧
    (PrintRealtime sc now).2.queryOps = sc.queryOps ∧
    (PrintRealtime sc now).2.sensorDataErrors = sc.sensorDataErrors ∧
    (PrintRealtime sc now).2.sensorRWErrors = sc.sensorRWErrors ∧
    (PrintRealtime sc now).2.batchRWErrors = sc.batchRWErrors ∧
    (PrintRealtime sc now).2.queryErrors = sc.queryErrors ∧
    (PrintRealtime sc now).2.startTime = sc.startTime ∧
    (PrintRealtime sc now).2.resultChan = sc.resultChan ∧
    (PrintRealtime sc now).2.lastSensorDataSent = sc.sensorDataSent ∧
    (PrintRealtime sc now).2.lastSensorRWSent = sc.sensorRWSent ∧
    (PrintRealtime sc now).2.lastBatchRWSent = sc.batchRWSent ∧
    (PrintRealtime sc now).2.lastQuerySent = sc.querySent ∧
    (PrintRealtime sc now).2.lastSensorDataOps = sc.sensorDataOps ∧
    (PrintRealtime sc now).2.lastSensorRWOps = sc.sensorRWOps ∧
    (PrintRealtime sc now).2.lastBatchRWOps = sc.batchRWOps ∧
    (PrintRealtime sc now).2.lastQueryOps = sc.queryOps ∧
    (PrintRealtime sc now).2.lastPrintTime = now ∧
    (PrintFinalReport sc).2 = sc :=
  ⟨rfl, rfl, rfl, rfl, rfl, rfl, rfl, rfl, rfl, rfl, rfl, rfl, rfl, rfl, rfl, rfl, rfl, rfl,
   rfl, rfl, rfl, rfl, rfl, rfl, rfl, rfl, rfl, rfl⟩

/-! ### C10 -/

/-- C10: `processResult` leaves the collector unchanged for any event
whose operation is not one of the four known names — Sent or Completed —
and in particular for the failed-completion event that
`ExecuteOperation` pushes for an unknown operation name. -/
theorem c10_unknown_operation_ignored (sc : Collector) (r : Result)
    (h : r.operation ∉ knownOps) :
    processResult sc r = sc ∧ processResult sc (unknownOpEvent r.operation) = sc := by
  simp only [knownOps, List.mem_cons, List.mem_singleton, List.not_mem_nil, or_false,
    not_or] at h
  obtain ⟨h1, h2, h3, h4⟩ := h
  cases hs : r.isSent <;>
    simp [processResult, unknownOpEvent, h1, h2, h3, h4, hs]

/-- Witness for C10: a Completed event for the unknown operation name
"sensor-batch" is discarded by the fresh collector. -/
theorem c10_unknown_operation_ignored_witness :
    processResult initCollector ⟨"sensor-batch", 3, 2, false, false⟩ = initCollector ∧
    processResult initCollector
      (unknownOpEvent (Result.operation ⟨"sensor-batch", 3, 2, false, false⟩)) = initCollector :=
  c10_unknown_operation_ignored initCollector ⟨"sensor-batch", 3, 2, false, false⟩ (by decide)

/-- Witness for C2 at a concrete input: a 3 ms latency recorded on a
fresh histogram lands in the `≤ 5 ms` bucket (index 2). -/
theorem c2_bucket_selection_witness :
    ∃ j : Nat, j < 13 ∧
      (∀ i < 13, (Record NewLatencyStats 3000000 0).buckets.getD i 0 =
        NewLatencyStats.buckets.getD i 0 + (if i = j then 1 else 0)) ∧
      ((((3000000 : Int) : ℚ) / 1000000 ≤ 5000 ∧ j < 12 ∧
          ((3000000 : Int) : ℚ) / 1000000 ≤ latencyBuckets.getD j 0 ∧
          (∀ i < j, latencyBuckets.getD i 0 < ((3000000 : Int) : ℚ) / 1000000)) ∨
        (5000 < ((3000000 : Int) : ℚ) / 1000000 ∧ j = 12)) :=
  c2_bucket_selection NewLatencyStats 3000000 0 (by simp [NewLatencyStats])

/-! ### Trace semantics lemmas for C4 -/

theorem runTrace_nil (sc : Collector) : runTrace sc [] = sc := rfl

theorem runTrace_cons (sc : Collector) (a : Action) (t : List Action) :
    runTrace sc (a :: t) = runTrace (step sc a) t := rfl

theorem runTrace_append (sc : Collector) (l₁ l₂ : List Action) :
    runTrace sc (l₁ ++ l₂) = runTrace (runTrace sc l₁) l₂ := by
  simp [runTrace, List.foldl_append]

theorem pushedResults_append (l₁ l₂ : List Action) :
    pushedResults (l₁ ++ l₂) = pushedResults l₁ ++ pushedResults l₂ := by
  simp [pushedResults]

theorem noDropAux_append (sc : Collector) (l₁ l₂ : List Action) :
    NoDropAux sc (l₁ ++ l₂) = true ↔
      (NoDropAux sc l₁ = true ∧ NoDropAux (runTrace sc l₁) l₂ = true) := by
  induction l₁ generalizing sc with
  | nil => simp [NoDropAux, runTrace_nil]
  | cons a l₁ ih =>
    cases a <;>
      simp [NoDropAux, runTrace_cons, ih, Bool.and_eq_true, and_assoc]

theorem wfAux_of_append (s : List (Nat × String)) (d : List Nat) (l₁ l₂ : List Action)
    (h : WFAux s d (l₁ ++ l₂) = true) : WFAux s d l₁ = true := by
  induction l₁ generalizing s d with
  | nil => rfl
  | cons a l₁ ih =>
    cases a with
    | pushSent inv op =>
      simp only [List.cons_append, WFAux, Bool.and_eq_true] at h ⊢
      exact ⟨h.1, ih _ _ h.2⟩
    | pushCompleted inv op latency priority success =>
      simp only [List.cons_append, WFAux, Bool.and_eq_true] at h ⊢
      exact ⟨h.1, ih _ _ h.2⟩
    | processOne =>
      simp only [List.cons_append, WFAux] at h ⊢
      exact ih _ _ h

/-- Effect of one `processResult` call on the twelve counters and the
queue: exactly the matching per-operation count moves by one. -/
theorem processResult_deltas (sc : Collector) (r : Result) :
    (processResult sc r).sensorDataSent =
      sc.sensorDataSent + (if isSentFor "sensor-data" r then 1 else 0) ∧
    (processResult sc r).sensorRWSent =
      sc.sensorRWSent + (if isSentFor "sensor-rw" r then 1 else 0) ∧
    (processResult sc r).batchRWSent =
      sc.batchRWSent + (if isSentFor "batch-rw" r then 1 else 0) ∧
    (processResult sc r).querySent =
      sc.querySent + (if isSentFor "query" r then 1 else 0) ∧
    (processResult sc r).sensorDataOps + (processResult sc r).sensorDataErrors =
      sc.sensorDataOps + sc.sensorDataErrors + (if isCompletedFor "sensor-data" r then 1 else 0) ∧
    (processResult sc r).sensorRWOps + (processResult sc r).sensorRWErrors =
      sc.sensorRWOps + sc.sensorRWErrors + (if isCompletedFor "sensor-rw" r then 1 else 0) ∧
    (processResult sc r).batchRWOps + (processResult sc r).batchRWErrors =
      sc.batchRWOps + sc.batchRWErrors + (if isCompletedFor "batch-rw" r then 1 else 0) ∧
    (processResult sc r).queryOps + (processResult sc r).queryErrors =
      sc.queryOps + sc.queryErrors + (if isCompletedFor "query" r then 1 else 0) ∧
    (processResult sc r).resultChan = sc.resultChan := by
  obtain ⟨op, lat, pri, succ, isSent⟩ := r
  cases isSent <;> cases succ <;>
    by_cases h1 : op = "sensor-data" <;>
      by_cases h2 : op = "sensor-rw" <;>
        by_cases h3 : op = "batch-rw" <;>
          by_cases h4 : op = "query" <;>
            simp_all [processResult, isSentFor, isCompletedFor] <;>
              omega

/-- Counting a predicate that is pointwise below another, and false at
some member where the other is true, loses at least one. -/
theorem countP_succ_le (l : List α) (p q : α → Bool) (a : α) (ha : a ∈ l)
    (hpq : ∀ x ∈ l, p x = true → q x = true) (hpa : p a = false) (hqa : q a = true) :
    l.countP p + 1 ≤ l.countP q := by
  induction l with
  | nil => simp at ha
  | cons x tl ih =>
    rcases List.mem_cons.mp ha with rfl | hatl
    · rw [List.countP_cons, List.countP_cons, hpa, hqa]
      simpa using List.countP_mono_left (fun y hy => hpq y (List.mem_cons_of_mem _ hy))
    · have hx : (if p x = true then 1 else 0) ≤ (if q x = true then 1 else 0) := by
        by_cases hp : p x = true
        · simp [hp, hpq x (List.mem_cons_self x tl) hp]
        · simp [hp]
      rw [List.countP_cons, List.countP_cons]
      have := ih hatl (fun y hy h => hpq y (List.mem_cons_of_mem _ hy) h)
      omega

theorem processResult_resultChan (sc : Collector) (r : Result) :
    (processResult sc r).resultChan = sc.resultChan := by
  unfold processResult
  split_ifs <;> rfl

/-- Processing the event at the front of the queue preserves the
correspondence between the counters and the processed event sequence. -/
theorem counterInv_process (c : Collector) (processed : List Result) (r : Result)
    (rest : List Result) (hinv : CounterInv c processed) :
    CounterInv (processResult { c with resultChan := rest } r) (processed ++ [r]) := by
  obtain ⟨d1, d2, d3, d4, d5, d6, d7, d8, -⟩ :=
    processResult_deltas { c with resultChan := rest } r
  obtain ⟨e1, e2, e3, e4, e5, e6, e7, e8⟩ := hinv
  refine ⟨?_, ?_, ?_, ?_, ?_, ?_, ?_, ?_⟩
  all_goals
    (simp only [d1, d2, d3, d4, d5, d6, d7, d8]
     simp only [e1, e2, e3, e4, e5, e6, e7, e8, sentCount, completedCount,
       List.countP_append, List.countP_cons, List.countP_nil]
     split_ifs <;> push_cast <;> omega)

/-- Along a run with no dropped pushes, the events processed so far
followed by the queue contents reproduce the pushed event sequence, and
the counters count the processed events. -/
theorem run_invariant (t : List Action) (hnd : NoDropAux initCollector t = true) :
    ∃ processed : List Result,
      processed ++ (runTrace initCollector t).resultChan = pushedResults t ∧
      CounterInv (runTrace initCollector t) processed := by
  induction t using List.reverseRecOn with
  | nil =>
    refine ⟨[], by simp [runTrace_nil, pushedResults, initCollector, NewCollector], ?_⟩
    simp [CounterInv, runTrace_nil, sentCount, completedCount, initCollector, NewCollector]
  | append_singleton t a ih =>
    rw [noDropAux_append] at hnd
    obtain ⟨hnd1, hnd2⟩ := hnd
    obtain ⟨processed, hq, hinv⟩ := ih hnd1
    rw [runTrace_append, pushedResults_append]
    cases a with
    | pushSent inv op =>
      have hroom : (runTrace initCollector t).resultChan.length < chanCap := by
        simp only [NoDropAux, Bool.and_eq_true, decide_eq_true_eq] at hnd2
        exact hnd2.1
      have hrun : runTrace (runTrace initCollector t) [Action.pushSent inv op] =
          { runTrace initCollector t with
            resultChan := (runTrace initCollector t).resultChan ++ [⟨op, 0, 0, true, true⟩] } := by
        rw [runTrace_cons, runTrace_nil]
        simp [step, PushSentEvent, pushEvent, hroom]
      refine ⟨processed, ?_, ?_⟩
      · rw [hrun]
        show processed ++ ((runTrace initCollector t).resultChan ++ [⟨op, 0, 0, true, true⟩]) =
          pushedResults t ++ pushedResults [Action.pushSent inv op]
        rw [← List.append_assoc, hq]
        simp [pushedResults, resultOf]
      · rw [hrun]
        exact hinv
    | pushCompleted inv op lat pri succ =>
      have hroom : (runTrace initCollector t).resultChan.length < chanCap := by
        simp only [NoDropAux, Bool.and_eq_true, decide_eq_true_eq] at hnd2
        exact hnd2.1
      have hrun : runTrace (runTrace initCollector t)
            [Action.pushCompleted inv op lat pri succ] =
          { runTrace initCollector t with
            resultChan := (runTrace initCollector t).resultChan ++ [⟨op, lat, pri, succ, false⟩] } := by
        rw [runTrace_cons, runTrace_nil]
        simp [step, PushCompletedResult, pushEvent, hroom]
      refine ⟨processed, ?_, ?_⟩
      · rw [hrun]
        show processed ++ ((runTrace initCollector t).resultChan ++ [⟨op, lat, pri, succ, false⟩]) =
          pushedResults t ++ pushedResults [Action.pushCompleted inv op lat pri succ]
        rw [← List.append_assoc, hq]
        simp [pushedResults, resultOf]
      · rw [hrun]
        exact hinv
    | processOne =>
      cases hchan : (runTrace initCollector t).resultChan with
      | nil =>
        have hrun : runTrace (runTrace initCollector t) [Action.processOne] =
            runTrace initCollector t := by
          rw [runTrace_cons, runTrace_nil]
          simp [step, hchan]
        refine ⟨processed, ?_, ?_⟩
        · rw [hrun]
          simpa [pushedResults, resultOf] using hq
        · rw [hrun]
          exact hinv
      | cons r rest =>
        have hrun : runTrace (runTrace initCollector t) [Action.processOne] =
            processResult { runTrace initCollector t with resultChan := rest } r := by
          rw [runTrace_cons, runTrace_nil]
          simp [step, hchan]
        refine ⟨processed ++ [r], ?_, ?_⟩
        · rw [hrun, processResult_resultChan]
          show (processed ++ [r]) ++ rest = pushedResults t ++ pushedResults [Action.processOne]
          rw [List.append_assoc]
          simpa [pushedResults, resultOf, hchan] using hq
        · rw [hrun]
          exact counterInv_process _ _ _ _ hinv

/-- On any prefix of the pushed event sequence of a well-formed trace,
the number of Completed events of each operation never exceeds the
number of Sent events of the operation plus the invocations already open
in the well-formedness state. -/
theorem wfAux_count (t : List Action) (s : List (Nat × String)) (d : List Nat)
    (hwf : WFAux s d t = true) (hnodup : (s.map Prod.fst).Nodup)
    (hsub : ∀ i ∈ d, i ∈ s.map Prod.fst) :
    ∀ p : List Result, p <+: pushedResults t → ∀ op : String,
      completedCount op p ≤ sentCount op p + openCount op s d := by
  induction t generalizing s d with
  | nil =>
    intro p hp op
    have hpnil : p = [] := List.prefix_nil.mp (by simpa [pushedResults] using hp)
    subst hpnil
    simp [completedCount, sentCount]
  | cons a t ih =>
    cases a with
    | processOne =>
      simp only [WFAux] at hwf
      intro p hp op
      exact ih s d hwf hnodup hsub p (by simpa [pushedResults] using hp) op
    | pushSent inv op' =>
      simp only [WFAux, Bool.and_eq_true, Bool.not_eq_eq_eq_not, Bool.not_true,
        decide_eq_false_iff_not] at hwf
      obtain ⟨hfresh, hwf'⟩ := hwf
      intro p hp op
      have hpr : pushedResults (Action.pushSent inv op' :: t) =
          (⟨op', 0, 0, true, true⟩ : Result) :: pushedResults t := by
        simp [pushedResults, resultOf]
      rw [hpr] at hp
      cases p with
      | nil => simp [completedCount, sentCount]
      | cons q p' =>
        obtain ⟨rfl, hp'⟩ := List.cons_prefix_cons.mp hp
        have hnin : inv ∉ d := fun hmem => hfresh (hsub inv hmem)
        have ihh := ih ((inv, op') :: s) d hwf'
          (by rw [List.map_cons]; exact List.nodup_cons.mpr ⟨hfresh, hnodup⟩)
          (fun i hi => List.mem_cons_of_mem _ (hsub i hi)) p' hp' op
        have hopen : openCount op ((inv, op') :: s) d =
            openCount op s d + (if op' = op then 1 else 0) := by
          by_cases h : op' = op <;> simp [openCount, List.countP_cons, hnin, h]
        have hsc : sentCount op ((⟨op', 0, 0, true, true⟩ : Result) :: p') =
            sentCount op p' + (if op' = op then 1 else 0) := by
          by_cases h : op' = op <;> simp [sentCount, List.countP_cons, isSentFor, h]
        have hcc : completedCount op ((⟨op', 0, 0, true, true⟩ : Result) :: p') =
            completedCount op p' := by
          simp [completedCount, List.countP_cons, isCompletedFor]
        rw [hcc, hsc]
        rw [hopen] at ihh
        omega
    | pushCompleted inv op' lat pri succ =>
      simp only [WFAux, Bool.and_eq_true, Bool.not_eq_eq_eq_not, Bool.not_true,
        decide_eq_false_iff_not, decide_eq_true_eq] at hwf
      obtain ⟨⟨hmem, hnin⟩, hwf'⟩ := hwf
      intro p hp op
      have hpr : pushedResults (Action.pushCompleted inv op' lat pri succ :: t) =
          (⟨op', lat, pri, succ, false⟩ : Result) :: pushedResults t := by
        simp [pushedResults, resultOf]
      rw [hpr] at hp
      cases p with
      | nil => simp [completedCount, sentCount]
      | cons q p' =>
        obtain ⟨rfl, hp'⟩ := List.cons_prefix_cons.mp hp
        have ihh := ih s (inv :: d) hwf' hnodup
          (fun i hi => by
            rcases List.mem_cons.mp hi with rfl | hi'
            · exact List.mem_map_of_mem Prod.fst hmem
            · exact hsub i hi') p' hp' op
        have hopen : openCount op s (inv :: d) + (if op' = op then 1 else 0) ≤
            openCount op s d := by
          unfold openCount
          by_cases h : op' = op
          · subst h
            rw [if_pos rfl]
            refine countP_succ_le s _ _ (inv, op') hmem ?_ ?_ ?_
            · intro x hx hpx
              simp only [Bool.and_eq_true, decide_eq_true_eq, Bool.not_eq_eq_eq_not,
                Bool.not_true, decide_eq_false_iff_not, List.mem_cons, not_or] at hpx ⊢
              exact ⟨hpx.1, hpx.2.2⟩
            · simp
            · simp [hnin]
          · rw [if_neg h, add_zero]
            refine List.countP_mono_left ?_
            intro x hx hpx
            simp only [Bool.and_eq_true, decide_eq_true_eq, Bool.not_eq_eq_eq_not,
              Bool.not_true, decide_eq_false_iff_not, List.mem_cons, not_or] at hpx ⊢
            exact ⟨hpx.1, hpx.2.2⟩
        have hsc : sentCount op ((⟨op', lat, pri, succ, false⟩ : Result) :: p') =
            sentCount op p' := by
          simp [sentCount, List.countP_cons, isSentFor]
        have hcc : completedCount op ((⟨op', lat, pri, succ, false⟩ : Result) :: p') =
            completedCount op p' + (if op' = op then 1 else 0) := by
          by_cases h : op' = op <;> simp [completedCount, List.countP_cons, isCompletedFor, h]
        rw [hcc, hsc]
        omega

/-! ### Run and well-formedness of the C4 counterexample trace -/

theorem step_pushSent_full (sc : Collector) (inv : Nat) (op : String)
    (h : ¬ sc.resultChan.length < chanCap) :
    step sc (Action.pushSent inv op) = sc := by
  simp [step, PushSentEvent, pushEvent, h]

theorem runTrace_pushSents (ids : List Nat) (sc : Collector)
    (h : sc.resultChan.length + ids.length ≤ chanCap) :
    runTrace sc (ids.map fun i => Action.pushSent i "sensor-data") =
      { sc with resultChan := sc.resultChan ++ List.replicate ids.length cexSent } := by
  induction ids generalizing sc with
  | nil => simp [runTrace_nil]
  | cons i ids ih =>
    rw [List.map_cons, runTrace_cons]
    have hroom : sc.resultChan.length < chanCap := by
      simp only [List.length_cons] at h
      omega
    have hstep : step sc (Action.pushSent i "sensor-data") =
        { sc with resultChan := sc.resultChan ++ [cexSent] } := by
      simp [step, PushSentEvent, pushEvent, hroom, cexSent]
    have hcond : ({ sc with resultChan := sc.resultChan ++ [cexSent] } : Collector).resultChan.length
        + ids.length ≤ chanCap := by
      simp only [List.length_cons] at h
      simp only [List.length_append, List.length_singleton]
      omega
    rw [hstep, ih _ hcond]
    simp [List.append_assoc, List.replicate_succ]

theorem runTrace_pushCompleteds (ids : List Nat) (sc : Collector)
    (h : sc.resultChan.length + ids.length ≤ chanCap) :
    runTrace sc (ids.map fun i => Action.pushCompleted i "sensor-data" 0 0 true) =
      { sc with resultChan := sc.resultChan ++ List.replicate ids.length cexCompleted } := by
  induction ids generalizing sc with
  | nil => simp [runTrace_nil]
  | cons i ids ih =>
    rw [List.map_cons, runTrace_cons]
    have hroom : sc.resultChan.length < chanCap := by
      simp only [List.length_cons] at h
      omega
    have hstep : step sc (Action.pushCompleted i "sensor-data" 0 0 true) =
        { sc with resultChan := sc.resultChan ++ [cexCompleted] } := by
      simp [step, PushCompletedResult, pushEvent, hroom, cexCompleted]
    have hcond : ({ sc with resultChan := sc.resultChan ++ [cexCompleted] } : Collector).resultChan.length
        + ids.length ≤ chanCap := by
      simp only [List.length_cons] at h
      simp only [List.length_append, List.length_singleton]
      omega
    rw [hstep, ih _ hcond]
    simp [List.append_assoc, List.replicate_succ]

theorem runTrace_procs_sent (n : Nat) (sc : Collector) (rest : List Result)
    (h : sc.resultChan = List.replicate n cexSent ++ rest) :
    runTrace sc (procs n) =
      { sc with resultChan := rest, sensorDataSent := sc.sensorDataSent + n } := by
  induction n generalizing sc with
  | zero =>
    simp only [List.replicate_zero, List.nil_append] at h
    subst h
    simp [procs, runTrace_nil]
  | succ n ih =>
    have hp : procs (n + 1) = Action.processOne :: procs n := by
      simp [procs, List.replicate_succ]
    rw [hp, runTrace_cons]
    rw [List.replicate_succ, List.cons_append] at h
    have hstep : step sc Action.processOne =
        { sc with resultChan := List.replicate n cexSent ++ rest,
                  sensorDataSent := sc.sensorDataSent + 1 } := by
      simp [step, h, processResult, cexSent]
    rw [hstep, ih _ rfl]
    have harith : sc.sensorDataSent + 1 + (n : Int) = sc.sensorDataSent + ((n + 1 : Nat) : Int) := by
      push_cast
      ring
    rw [harith]

theorem runTrace_procs_completed (n : Nat) (sc : Collector) (rest : List Result)
    (h : sc.resultChan = List.replicate n cexCompleted ++ rest) :
    runTrace sc (procs n) =
      { sc with resultChan := rest, sensorDataOps := sc.sensorDataOps + n,
                sensorDataStats := (fun ls => Record ls 0 0)^[n] sc.sensorDataStats } := by
  induction n generalizing sc with
  | zero =>
    simp only [List.replicate_zero, List.nil_append] at h
    subst h
    simp [procs, runTrace_nil]
  | succ n ih =>
    have hp : procs (n + 1) = Action.processOne :: procs n := by
      simp [procs, List.replicate_succ]
    rw [hp, runTrace_cons]
    rw [List.replicate_succ, List.cons_append] at h
    have hstep : step sc Action.processOne =
        { sc with resultChan := List.replicate n cexCompleted ++ rest,
                  sensorDataOps := sc.sensorDataOps + 1,
                  sensorDataStats := Record sc.sensorDataStats 0 0 } := by
      simp [step, h, processResult, cexCompleted]
    rw [hstep, ih _ rfl]
    have harith : sc.sensorDataOps + 1 + (n : Int) = sc.sensorDataOps + ((n + 1 : Nat) : Int) := by
      push_cast
      ring
    rw [harith, ← Function.iterate_succ_apply]

theorem wfAux_procs (n : Nat) (s : List (Nat × String)) (d : List Nat) (rest : List Action) :
    WFAux s d (procs n ++ rest) = WFAux s d rest := by
  induction n with
  | zero => simp [procs]
  | succ n ih =>
    have hp : procs (n + 1) = Action.processOne :: procs n := by
      simp [procs, List.replicate_succ]
    rw [hp, List.cons_append, WFAux, ih]

theorem wfAux_pushSents (ids : List Nat) (op : String) (s : List (Nat × String)) (d : List Nat)
    (rest : List Action) (hnodup : ids.Nodup) (hfresh : ∀ i ∈ ids, i ∉ s.map Prod.fst)
    (hrest : WFAux (ids.reverse.map (fun i => (i, op)) ++ s) d rest = true) :
    WFAux s d (ids.map (fun i => Action.pushSent i op) ++ rest) = true := by
  induction ids generalizing s with
  | nil => simpa using hrest
  | cons i ids ih =>
    simp only [List.map_cons, List.cons_append, WFAux, Bool.and_eq_true]
    obtain ⟨hi, hids⟩ := List.nodup_cons.mp hnodup
    refine ⟨?_, ?_⟩
    · simp only [Bool.not_eq_eq_eq_not, Bool.not_true, decide_eq_false_iff_not]
      exact hfresh i (List.mem_cons_self i ids)
    · refine ih _ hids ?_ ?_
      · intro j hj
        rw [List.map_cons, List.mem_cons, not_or]
        exact ⟨fun e => hi ((show j = i from e) ▸ hj), hfresh j (List.mem_cons_of_mem _ hj)⟩
      · have hshape : (i :: ids).reverse.map (fun i => (i, op)) ++ s =
            ids.reverse.map (fun i => (i, op)) ++ ((i, op) :: s) := by
          simp [List.reverse_cons, List.append_assoc]
        rw [hshape] at hrest
        exact hrest

theorem wfAux_pushCompleteds (ids : List Nat) (op : String) (s : List (Nat × String))
    (d : List Nat) (rest : List Action) (hnodup : ids.Nodup)
    (hmem : ∀ i ∈ ids, (i, op) ∈ s) (hnd : ∀ i ∈ ids, i ∉ d)
    (hrest : WFAux s (ids.reverse ++ d) rest = true) :
    WFAux s d (ids.map (fun i => Action.pushCompleted i op 0 0 true) ++ rest) = true := by
  induction ids generalizing d with
  | nil => simpa using hrest
  | cons i ids ih =>
    simp only [List.map_cons, List.cons_append, WFAux, Bool.and_eq_true]
    obtain ⟨hi, hids⟩ := List.nodup_cons.mp hnodup
    refine ⟨⟨?_, ?_⟩, ?_⟩
    · simp only [decide_eq_true_eq]
      exact hmem i (List.mem_cons_self i ids)
    · simp only [Bool.not_eq_eq_eq_not, Bool.not_true, decide_eq_false_iff_not]
      exact hnd i (List.mem_cons_self i ids)
    · refine ih _ hids (fun j hj => hmem j (List.mem_cons_of_mem _ hj)) ?_ ?_
      · intro j hj
        rw [List.mem_cons, not_or]
        exact ⟨fun e => hi (e ▸ hj), hnd j (List.mem_cons_of_mem _ hj)⟩
      · have hshape : (i :: ids).reverse ++ d = ids.reverse ++ (i :: d) := by
          simp [List.reverse_cons, List.append_assoc]
        rw [hshape] at hrest
        exact hrest

theorem map_fst_pair (l : List Nat) (op : String) :
    (l.map (fun i => (i, op))).map Prod.fst = l := by
  induction l with
  | nil => rfl
  | cons i l ih => simp [ih]

theorem wfAux_cons_pushSent (s : List (Nat × String)) (d : List Nat) (inv : Nat) (op : String)
    (rest : List Action) :
    (WFAux s d (Action.pushSent inv op :: rest) = true) ↔
      (inv ∉ s.map Prod.fst ∧ WFAux ((inv, op) :: s) d rest = true) := by
  simp [WFAux]

theorem wfAux_cons_pushCompleted (s : List (Nat × String)) (d : List Nat) (inv : Nat)
    (op : String) (lat pri : Int) (succ : Bool) (rest : List Action) :
    (WFAux s d (Action.pushCompleted inv op lat pri succ :: rest) = true) ↔
      ((inv, op) ∈ s ∧ inv ∉ d ∧ WFAux s (inv :: d) rest = true) := by
  simp [WFAux, and_assoc]

theorem wfAux_cons_processOne (s : List (Nat × String)) (d : List Nat) (rest : List Action) :
    WFAux s d (Action.processOne :: rest) = WFAux s d rest := rfl

/-- Every invocation of the counterexample trace pushes its Sent event
before its (at most one) Completed event. -/
theorem cexTrace_wf : WF cexTrace = true := by
  unfold WF cexTrace
  refine wfAux_pushSents _ _ _ _ _ (List.nodup_range chanCap) ?_ ?_
  · intro i _
    exact List.not_mem_nil i
  rw [List.append_nil, wfAux_cons_pushSent]
  refine ⟨?_, ?_⟩
  · rw [map_fst_pair, List.mem_reverse, List.mem_range]
    omega
  · rw [wfAux_procs, wfAux_cons_pushCompleted]
    refine ⟨List.mem_cons_self _ _, List.not_mem_nil _, ?_⟩
    apply wfAux_pushCompleteds _ _ _ _ _ (List.nodup_range _) ?_ ?_ ?_
    · intro i hi
      rw [List.mem_range] at hi
      rw [List.mem_cons]
      right
      rw [List.mem_map]
      refine ⟨i, ?_, rfl⟩
      rw [List.mem_reverse, List.mem_range]
      omega
    · intro i hi
      rw [List.mem_range] at hi
      simp only [List.mem_singleton]
      omega
    · rw [wfAux_cons_pushSent]
      refine ⟨?_, ?_⟩
      · rw [List.map_cons, List.mem_cons, map_fst_pair]
        push_neg
        refine ⟨by omega, ?_⟩
        rw [List.mem_reverse, List.mem_range]
        omega
      · rw [wfAux_procs, wfAux_cons_pushCompleted]
        refine ⟨List.mem_cons_self _ _, ?_, ?_⟩
        · rw [List.mem_append, List.mem_reverse, List.mem_range, List.mem_singleton]
          push_neg
          omega
        · rfl

theorem step_pushCompleted_room (sc : Collector) (inv : Nat)
    (h : sc.resultChan.length < chanCap) :
    step sc (Action.pushCompleted inv "sensor-data" 0 0 true) =
      { sc with resultChan := sc.resultChan ++ [cexCompleted] } := by
  simp [step, PushCompletedResult, pushEvent, h, cexCompleted]

theorem step_processOne_cons (sc : Collector) (r : Result) (rest : List Result)
    (h : sc.resultChan = r :: rest) :
    step sc Action.processOne = processResult { sc with resultChan := rest } r := by
  simp [step, h]

theorem processResult_cexCompleted (sc : Collector) :
    processResult sc cexCompleted =
      { sc with sensorDataOps := sc.sensorDataOps + 1,
                sensorDataStats := Record sc.sensorDataStats 0 0 } := by
  simp [processResult, cexCompleted]

theorem pending_of_counters (sc : Collector) :
    (GetCurrentTotals sc).2.2.2 =
      sc.sensorDataSent + sc.sensorRWSent + sc.batchRWSent + sc.querySent
        - (sc.sensorDataOps + sc.sensorRWOps + sc.batchRWOps + sc.queryOps)
        - (sc.sensorDataErrors + sc.sensorRWErrors + sc.batchRWErrors + sc.queryErrors) := rfl

/-- Running the counterexample trace: 1000000 Sent events and 1000001
Completed events are counted, so the reported pending value is -1. -/
theorem cexTrace_pending :
    (GetCurrentTotals (runTrace initCollector cexTrace)).2.2.2 = -1 := by
  have hchan0 : initCollector.resultChan = ([] : List Result) := rfl
  have hsucc : chanCap - 1 + 1 = chanCap := by norm_num [chanCap]
  have hs1sent : cexS1.sensorDataSent = 0 := rfl
  have hs1chan : cexS1.resultChan = List.replicate chanCap cexSent := rfl
  have hs2chan : cexS2.resultChan = ([] : List Result) := rfl
  have hs3chan : cexS3.resultChan = [cexCompleted] := rfl
  have hs4chan : cexS4.resultChan = List.replicate chanCap cexCompleted := rfl
  have hs4ops : cexS4.sensorDataOps = 0 := rfl
  have hs4stats : cexS4.sensorDataStats = NewLatencyStats := rfl
  have hs5chan : cexS5.resultChan = ([] : List Result) := rfl
  have hA : runTrace initCollector
        ((List.range chanCap).map fun i => Action.pushSent i "sensor-data") = cexS1 := by
    rw [runTrace_pushSents _ _ (by rw [hchan0, List.length_nil, List.length_range, Nat.zero_add])]
    rw [hchan0, List.nil_append, List.length_range]
    rfl
  have hB : step cexS1 (Action.pushSent chanCap "sensor-data") = cexS1 :=
    step_pushSent_full _ _ _ (by
      rw [hs1chan, List.length_replicate]
      omega)
  have hC : runTrace cexS1 (procs chanCap) = cexS2 := by
    rw [runTrace_procs_sent chanCap _ [] (by rw [hs1chan, List.append_nil])]
    rw [hs1sent, zero_add]
    rfl
  have hD : step cexS2 (Action.pushCompleted chanCap "sensor-data" 0 0 true) = cexS3 := by
    rw [step_pushCompleted_room _ chanCap (by
      rw [hs2chan, List.length_nil]
      norm_num [chanCap])]
    rw [hs2chan, List.nil_append]
    rfl
  have hE : runTrace cexS3
        ((List.range (chanCap - 1)).map fun i => Action.pushCompleted i "sensor-data" 0 0 true) =
      cexS4 := by
    rw [runTrace_pushCompleteds _ _ (by
      rw [hs3chan, List.length_singleton, List.length_range]
      omega)]
    rw [List.length_range, hs3chan, List.singleton_append]
    rw [show cexCompleted :: List.replicate (chanCap - 1) cexCompleted =
        List.replicate chanCap cexCompleted by
      conv_rhs => rw [← hsucc]
      rw [List.replicate_succ]]
    rfl
  have hF : step cexS4 (Action.pushSent (chanCap + 1) "sensor-data") = cexS4 :=
    step_pushSent_full _ _ _ (by
      rw [hs4chan, List.length_replicate]
      omega)
  have hG : runTrace cexS4 (procs chanCap) = cexS5 := by
    rw [runTrace_procs_completed chanCap _ [] (by rw [hs4chan, List.append_nil])]
    rw [hs4ops, zero_add, hs4stats]
    rfl
  have hs5sent : cexS5.sensorDataSent = (chanCap : Int) := rfl
  have hs5ops : cexS5.sensorDataOps = (chanCap : Int) := rfl
  unfold cexTrace
  rw [runTrace_append, hA, runTrace_cons, hB, runTrace_append, hC, runTrace_cons, hD,
    runTrace_append, hE, runTrace_cons, hF, runTrace_append, hG, runTrace_cons,
    step_pushCompleted_room _ (chanCap + 1) (by
      rw [hs5chan, List.length_nil]
      norm_num [chanCap]),
    runTrace_cons,
    step_processOne_cons _ cexCompleted [] (by rw [hs5chan, List.nil_append]),
    processResult_cexCompleted, runTrace_nil, pending_of_counters]
  show (chanCap : Int) + 0 + 0 + 0 - ((chanCap : Int) + 1 + 0 + 0 + 0) - (0 + 0 + 0 + 0) = -1
  ring

/-! ### C4 -/

/-- Counterexample to C4 as stated: there is a schedulable sequence of
events in which every invocation pushes its Sent event before its
Completed event, yet `GetCurrentTotals` reports a negative pending
value.  The queue's drop-on-full policy loses Sent events of
invocations whose Completed events are later accepted, so the completed
count overtakes the sent count (see `cexTrace`). -/
theorem c4_pending_negative_counterexample :
    WF cexTrace = true ∧
    (GetCurrentTotals (runTrace initCollector cexTrace)).2.2.2 < 0 :=
  ⟨cexTrace_wf, by rw [cexTrace_pending]; norm_num⟩

/-- C4 amended: provided additionally that no push is dropped (every
push finds the queue below capacity), the invariant claimed by C4 holds —
at every instant (every prefix of the run) the total sent count is at
least the total completed count plus the total error count, i.e. the
pending value returned by `GetCurrentTotals` is never negative. -/
theorem c4_pending_nonneg_no_drop (t t₁ : List Action) (hwf : WF t = true)
    (hnd : NoDrop t = true) (hpre : t₁ <+: t) :
    0 ≤ (GetCurrentTotals (runTrace initCollector t₁)).2.2.2 := by
  obtain ⟨u, rfl⟩ := hpre
  have hwf1 : WFAux [] [] t₁ = true := wfAux_of_append [] [] t₁ u hwf
  have hnd1 : NoDropAux initCollector t₁ = true :=
    ((noDropAux_append initCollector t₁ u).mp hnd).1
  obtain ⟨processed, hq, hinv⟩ := run_invariant t₁ hnd1
  have hpr : processed <+: pushedResults t₁ :=
    ⟨(runTrace initCollector t₁).resultChan, hq⟩
  have hcnt := wfAux_count t₁ [] [] hwf1 (by simp)
    (fun i hi => absurd hi (List.not_mem_nil i)) processed hpr
  have h1 := hcnt "sensor-data"
  have h2 := hcnt "sensor-rw"
  have h3 := hcnt "batch-rw"
  have h4 := hcnt "query"
  obtain ⟨e1, e2, e3, e4, e5, e6, e7, e8⟩ := hinv
  rw [pending_of_counters]
  simp only [openCount, List.countP_nil] at h1 h2 h3 h4
  omega

/-- Witness for C4 (amended): a short drop-free well-formed run — one
invocation sends and completes with a failure — observed at its end has
pending value 0 ≥ 0. -/
theorem c4_pending_nonneg_no_drop_witness :
    WF [Action.pushSent 0 "sensor-data", Action.processOne,
        Action.pushCompleted 0 "sensor-data" 0 1 false, Action.processOne] = true ∧
    NoDrop [Action.pushSent 0 "sensor-data", Action.processOne,
        Action.pushCompleted 0 "sensor-data" 0 1 false, Action.processOne] = true ∧
    0 ≤ (GetCurrentTotals (runTrace initCollector
        [Action.pushSent 0 "sensor-data", Action.processOne,
         Action.pushCompleted 0 "sensor-data" 0 1 false, Action.processOne])).2.2.2 :=
  ⟨by decide, by decide,
    c4_pending_nonneg_no_drop _ _ (by decide) (by decide) (List.prefix_refl _)⟩

end Splay
